import Mathlib

/-!
Verification development for the garden planting-schedule optimiser
(`src/garden.py`, `src/main.py`).

The Python source is shallowly embedded: catalog entries become the `Crop`
structure, numeric attributes are modelled over `ℚ` (lifespans, which the
code uses as integers throughout its index arithmetic, over `ℤ`), the
`pulp` linear-programming layer becomes the formal `LinExpr` /
`NamedConstraint` types, and dictionaries become association lists with
Python's insert-or-overwrite semantics.
-/

namespace GardenOpt

/-- A catalog entry, mirroring the `Crop` TypedDict of `src/garden.py`.
The compound-only keys (`plant_1_name`, `plant_1_yield`, ...) are optional
in the Python dict; base crops never read them, so they default here. -/
structure Crop where
  name : String
  companions : List String
  greywater_ok : Bool
  yield : ℚ
  water_use : ℚ
  delta_n : ℚ
  lifespan : ℤ
  is_cover_crop : Bool
  is_compound : Bool
  plant_1_name : String := ""
  plant_2_name : String := ""
  plant_1_yield : ℚ := 0
  plant_2_yield : ℚ := 0
deriving DecidableEq, Repr

/-- The compound entry built for one ordered pair (crop, companion) in
`Garden.__init__` (`src/garden.py` lines 60-79).  Python's `//` on
integers is floor division, i.e. `Int.fdiv`. -/
def mkCompound (crop companion : Crop) : Crop :=
  let longest_lifespan := max crop.lifespan companion.lifespan
  let crop_multiplier := longest_lifespan.fdiv crop.lifespan
  let companion_multiplier := longest_lifespan.fdiv companion.lifespan
  let crop_yield := (crop_multiplier : ℚ) * crop.yield
  let companion_yield := (companion_multiplier : ℚ) * companion.yield
  { name := crop.name ++ "-" ++ companion.name
    plant_1_name := crop.name
    plant_2_name := companion.name
    companions := []
    delta_n := crop.delta_n * (crop_multiplier : ℚ)
                + companion.delta_n * (companion_multiplier : ℚ)
    water_use := crop.water_use + companion.water_use
    greywater_ok := crop.greywater_ok && companion.greywater_ok
    yield := crop_yield + companion_yield
    plant_1_yield := crop_yield
    plant_2_yield := companion_yield
    is_compound := true
    lifespan := longest_lifespan
    is_cover_crop := crop.is_cover_crop && companion.is_cover_crop }

/-- The compound-crop list generated in `Garden.__init__`
(`src/garden.py` lines 55-79): for each crop in catalog order, each
catalog entry whose name appears in that crop's `companions` list yields
one compound entry.  The expanded catalog is `crops ++ compound_crops crops`
(line 80), so companions are matched only against the pre-expansion list. -/
def compound_crops (crops : List Crop) : List Crop :=
  crops.flatMap (fun crop =>
    (crops.filter (fun c => crop.companions.contains c.name)).map
      (fun companion => mkCompound crop companion))

/-- The full catalog after `Garden.__init__` finishes (`src/garden.py`
line 80: `self.crops.extend(compound_crops)`). -/
def expand_catalog (crops : List Crop) : List Crop :=
  crops ++ compound_crops crops

/-- Python-dict assignment `d[k] = v` on an association list: overwrite in
place if the key is present, else append (insertion order preserved). -/
def dictSet (d : List (String × ℚ)) (k : String) (v : ℚ) : List (String × ℚ) :=
  if d.any (fun kv => kv.1 == k) then
    d.map (fun kv => if kv.1 == k then (k, v) else kv)
  else
    d ++ [(k, v)]

/-- The per-entry case split of `Garden.get_target_yields`
(`src/garden.py` lines 89-97): the key/value this entry writes into the
dict, if any. -/
def targetEntry (target : String) (c : Crop) : Option (String × ℚ) :=
  if c.is_compound = false then
    if c.name = target then some (c.name, c.yield) else none
  else if c.plant_1_name = target then some (c.name, c.plant_1_yield)
  else if c.plant_2_name = target then some (c.name, c.plant_2_yield)
  else none

/-- `Garden.get_target_yields` (`src/garden.py` lines 82-98): builds a
dict keyed by entry name, in catalog order. -/
def get_target_yields (crops : List Crop) (target : String) : List (String × ℚ) :=
  crops.foldl (fun d c =>
    match targetEntry target c with
    | some kv => dictSet d kv.1 kv.2
    | none => d) []

/-- `Garden.get_crop_by_name` (`src/garden.py` lines 103-104):
`[c for c in self.crops if c["name"] == name][0]`.  Indexing an empty
list raises `IndexError`; the fallible lookup is modelled by `Option`. -/
def get_crop_by_name (crops : List Crop) (name : String) : Option Crop :=
  (crops.filter (fun c => c.name == name)).head?

/-- `Garden.get_greywater_plants` (`src/garden.py` lines 109-110). -/
def get_greywater_plants (crops : List Crop) : List Crop :=
  crops.filter (fun c => c.greywater_ok)

/-- A decision variable of the model: a planted-area variable keyed by its
`pulp` dictionary key (the string `"{name}_week_{w}"`), or a weekly
fallow-area variable keyed by its week. -/
inductive Var where
  | plant (key : String)
  | fallow (w : ℕ)
deriving DecidableEq, Repr

/-- A `pulp` `LpAffineExpression`: a formal linear combination of
variables plus a constant. -/
structure LinExpr where
  terms : List (Var × ℚ)
  const : ℚ
deriving DecidableEq, Repr

/-- The value of a linear expression under an assignment of the
variables. -/
def LinExpr.eval (e : LinExpr) (a : Var → ℚ) : ℚ :=
  (e.terms.map (fun t => t.2 * a t.1)).sum + e.const

/-- Sum of two linear expressions. -/
def LinExpr.add (e₁ e₂ : LinExpr) : LinExpr :=
  ⟨e₁.terms ++ e₂.terms, e₁.const + e₂.const⟩

/-- Scalar multiple of a linear expression (`pulp` scales every
coefficient). -/
def LinExpr.smul (k : ℚ) (e : LinExpr) : LinExpr :=
  ⟨e.terms.map (fun t => (t.1, k * t.2)), k * e.const⟩

/-- A single variable as a linear expression. -/
def varE (v : Var) : LinExpr := ⟨[(v, 1)], 0⟩

/-- A constant as a linear expression. -/
def constE (q : ℚ) : LinExpr := ⟨[], q⟩

/-- `pulp.lpSum` over a list of expressions. -/
def lpSum (l : List LinExpr) : LinExpr :=
  l.foldr LinExpr.add (constE 0)

/-- The comparison operator of a `pulp` constraint (`pulp` has no strict
inequalities). -/
inductive Rel where
  | le
  | ge
  | eq
deriving DecidableEq, Repr

/-- A named constraint as added by `prob += expr <op> rhs, name`. -/
structure NamedConstraint where
  lhs : LinExpr
  rel : Rel
  rhs : LinExpr
  name : String
deriving DecidableEq, Repr

/-- The garden parameters plus the expanded crop catalog held by the
`Garden` object consumed by `setup_problem` (`src/main.py`). -/
structure YieldSpec where
  plant : String
  min_yield : ℚ
  max_yield : Option ℚ
  max_yield_pct : Option ℚ
deriving DecidableEq, Repr

/-- The `Garden` object as `setup_problem` sees it: the expanded crop
catalog (`garden.crops`) and the garden-parameter dict (`garden.garden`).
`num_weeks` in `src/main.py` is `garden.garden["weeks"]`. -/
structure Garden where
  crops : List Crop
  sqft : ℚ
  weeks : ℕ
  greywater : ℚ
  rainwater : ℚ
  yields : List YieldSpec
deriving DecidableEq, Repr

/-- `get_plant_variable_name` (`src/main.py` lines 195-196). -/
def get_plant_variable_name (crop : String) (week : ℕ) : String :=
  crop ++ "_week_" ++ toString week

/-- `get_variable_names_for_weeks` (`src/main.py` lines 199-203):
variable names for `range(week_start, week_end)`. -/
def get_variable_names_for_weeks (crop : String) (week_start week_end : ℕ) :
    List String :=
  (List.range' week_start (week_end - week_start)).map
    (get_plant_variable_name crop)

/-- `get_plants_living_in_week` (`src/main.py` lines 206-215): the
variables of plantings still alive in `week`, in ascending planting-week
order.  `earliest_planting = (week - lifespan) + 1`, clamped at 0. -/
def get_plants_living_in_week (crop : Crop) (week : ℕ) : List String :=
  let earliest_planting : ℤ := ((week : ℤ) - crop.lifespan) + 1
  let earliest_planting := if earliest_planting < 0 then 0 else earliest_planting
  get_variable_names_for_weeks crop.name earliest_planting.toNat (week + 1)

/-- `Garden.get_weeks_for_plant` (`src/garden.py` lines 115-116). -/
def get_weeks_for_plant (weeks : ℕ) (plant : Crop) : List String :=
  (List.range weeks).map (fun w => get_plant_variable_name plant.name w)

/-- The `total_yield` expression of `setup_problem`
(`src/main.py` lines 135-136). -/
def total_yield (g : Garden) : LinExpr :=
  lpSum (g.crops.map (fun c =>
    LinExpr.smul c.yield
      (lpSum ((get_weeks_for_plant g.weeks c).map (fun v => varE (Var.plant v))))))

/-- The `nitrogen_expression` of `setup_problem`
(`src/main.py` lines 137-139). -/
def nitrogen_expression (g : Garden) : LinExpr :=
  lpSum (g.crops.map (fun c =>
    LinExpr.smul c.delta_n
      (lpSum ((get_variable_names_for_weeks c.name 0 g.weeks).map
        (fun v => varE (Var.plant v))))))

/-- The fallow-land penalty expression of `setup_problem`
(`src/main.py` line 141): built but never added to the problem. -/
def fallow_penalty (g : Garden) : LinExpr :=
  lpSum ((List.range g.weeks).map (fun w =>
    LinExpr.smul (1/10) (varE (Var.fallow w))))

/-- The land constraint for week `w` (`src/main.py` line 156):
`lpSum(prev_planting_expressions) + fallow_vars[w] == garden.sqft`. -/
def land_constraint (g : Garden) (w : ℕ) : NamedConstraint :=
  { lhs := (lpSum (g.crops.map (fun crop =>
        lpSum ((get_plants_living_in_week crop w).map
          (fun v => varE (Var.plant v)))))).add (varE (Var.fallow w))
    rel := Rel.eq
    rhs := constE g.sqft
    name := "land_constraint_week_" ++ toString w }

/-- The greywater floor for week `w` (`src/main.py` lines 160-162). -/
def use_all_greywater_constraint (g : Garden) (w : ℕ) : NamedConstraint :=
  { lhs := lpSum ((get_greywater_plants g.crops).map (fun c =>
        LinExpr.smul c.water_use
          (lpSum ((get_plants_living_in_week c w).map
            (fun v => varE (Var.plant v))))))
    rel := Rel.ge
    rhs := constE g.greywater
    name := "use_all_greywater_week_" ++ toString w }

/-- The total-water cap for week `w` (`src/main.py` lines 164-166). -/
def total_water_constraint (g : Garden) (w : ℕ) : NamedConstraint :=
  { lhs := lpSum (g.crops.map (fun c =>
        LinExpr.smul c.water_use
          (lpSum ((get_plants_living_in_week c w).map
            (fun v => varE (Var.plant v))))))
    rel := Rel.le
    rhs := constE (g.greywater + g.rainwater)
    name := "total_water_constraint_week_" ++ toString w }

/-- The three per-week constraints of `setup_problem`
(`src/main.py` lines 145-166): land, greywater floor, total-water cap. -/
def weekly_constraints (g : Garden) : List NamedConstraint :=
  (List.range g.weeks).flatMap (fun w =>
    [ land_constraint g w,
      use_all_greywater_constraint g w,
      total_water_constraint g w ])

/-- The per-target yield constraints of `setup_problem`
(`src/main.py` lines 169-178). -/
def yield_constraints (g : Garden) : List NamedConstraint :=
  g.yields.flatMap (fun ys =>
    let sum_contributing_crops := lpSum
      ((get_target_yields g.crops ys.plant).map (fun cy =>
        LinExpr.smul cy.2
          (lpSum ((get_variable_names_for_weeks cy.1 0 g.weeks).map
            (fun v => varE (Var.plant v))))))
    [ { lhs := sum_contributing_crops, rel := Rel.ge,
        rhs := constE ys.min_yield, name := ys.plant ++ "_min_yield" } ]
    ++ (match ys.max_yield with
        | some m => [ { lhs := sum_contributing_crops, rel := Rel.le,
                        rhs := constE m, name := ys.plant ++ "_max_yield" } ]
        | none => [])
    ++ (match ys.max_yield_pct with
        | some p => [ { lhs := sum_contributing_crops, rel := Rel.le,
                        rhs := LinExpr.smul p (total_yield g),
                        name := ys.plant ++ "_max_yield_percent" } ]
        | none => []))

/-- The harvestability ("latest planting") constraints of `setup_problem`
(`src/main.py` lines 181-187).  Cover crops are skipped; otherwise the
alive-in-final-week variable list is taken, and when the crop's lifespan
fits the horizon and the list is non-empty, its first (earliest planting
week) element is removed by `plants_that_overlap[1:]` before the zero-sum
constraint is added. -/
def latest_planting_constraints (g : Garden) : List NamedConstraint :=
  g.crops.filterMap (fun crop =>
    if crop.is_cover_crop then none
    else
      let plants_that_overlap := get_plants_living_in_week crop (g.weeks - 1)
      let plants_that_overlap :=
        if crop.lifespan ≤ (g.weeks : ℤ) ∧ 0 < plants_that_overlap.length then
          plants_that_overlap.drop 1
        else plants_that_overlap
      some { lhs := lpSum (plants_that_overlap.map (fun v => varE (Var.plant v)))
             rel := Rel.eq
             rhs := constE 0
             name := "latest_planting_" ++ crop.name })

/-- The model object assembled by `setup_problem`: the objective set by
`prob += (total_yield + (0.1 * nitrogen_expression))` and the named
constraint list in the order the source adds them. -/
structure LPProblem where
  objective : LinExpr
  constraints : List NamedConstraint
deriving DecidableEq, Repr

/-- `setup_problem` (`src/main.py` lines 129-192). -/
def setup_problem (g : Garden) : LPProblem :=
  { objective := (total_yield g).add (LinExpr.smul (1/10) (nitrogen_expression g))
    constraints :=
      weekly_constraints g
      ++ yield_constraints g
      ++ latest_planting_constraints g
      ++ [ { lhs := nitrogen_expression g, rel := Rel.ge,
             rhs := constE 0, name := "nitrogen constraints" } ] }

/-- The sensitivity-analysis step of `__main__` (`src/main.py` line 284):
`garden.garden["rainwater"] = garden.garden["rainwater"] * 0.5`.  The
assignment mutates the one `garden` object in place, so the result is the
state that the original binding (and the rebuilt model) observes. -/
def sensitivity_step (g : Garden) : Garden :=
  { g with rainwater := g.rainwater * 0.5 }

/-! ### Specification-side definitions

These follow the spec's wording (intervals of planting weeks, attributed
areas) and are compared against the source-derived definitions above. -/

/-- The spec's description of the alive set: the planting weeks `p` with
`max 0 (w - lifespan + 1) ≤ p ≤ w`. -/
def aliveWeeksSpec (lifespan : ℤ) (w : ℕ) : List ℕ :=
  (List.range (w + 1)).filter (fun p => decide (max 0 ((w : ℤ) - lifespan + 1) ≤ (p : ℤ)))

/-- The first alive planting week, as a natural number. -/
def aliveStart (lifespan : ℤ) (w : ℕ) : ℕ :=
  (max 0 ((w : ℤ) - lifespan + 1)).toNat

/-- The area a crop occupies in week `w` under an assignment: the sum of
its alive planting-week variables. -/
def aliveAreaSpec (a : Var → ℚ) (c : Crop) (w : ℕ) : ℚ :=
  ((aliveWeeksSpec c.lifespan w).map
    (fun p => a (Var.plant (get_plant_variable_name c.name p)))).sum

/-- The sum of one crop's planting-week variables across the horizon. -/
def weeklySum (a : Var → ℚ) (c : Crop) (weeks : ℕ) : ℚ :=
  ((List.range weeks).map
    (fun w => a (Var.plant (get_plant_variable_name c.name w)))).sum

/-- Modelled from the amended claim: the planting weeks whose final-week
zero-sum constraint covers them, with the single EARLIEST alive-in-final-
week variable (planting week `max 0 (weeks - lifespan)`) exempted when the
lifespan fits the horizon and the alive set is non-empty. -/
def amendedConstrainedWeeks (lifespan : ℤ) (weeks : ℕ) : List ℕ :=
  let alive := aliveWeeksSpec lifespan (weeks - 1)
  if lifespan ≤ (weeks : ℤ) ∧ alive ≠ [] then
    alive.filter (fun p => decide (max 0 ((weeks : ℤ) - lifespan) < (p : ℤ)))
  else alive

/-- Modelled from the claim C1 as stated: the zero-sum is to cover all
alive-in-final-week planting weeks except the single MOST-RECENT one
(which, when the alive set is non-empty, is week `weeks - 1` itself). -/
def claimConstrainedWeeks (lifespan : ℤ) (weeks : ℕ) : List ℕ :=
  let alive := aliveWeeksSpec lifespan (weeks - 1)
  if lifespan ≤ (weeks : ℤ) ∧ alive ≠ [] then
    alive.filter (fun p => decide (p < weeks - 1))
  else alive

/-- Claim C1 as stated, for a given garden: every non-cover-crop entry
gets exactly one harvestability constraint, an equality with rhs 0 whose
sum ranges over the alive-in-final-week variables minus the most-recent
one (when the lifespan fits and the set is non-empty); cover crops get
none; lifespan beyond the horizon means no exemption. -/
def C1Claim (g : Garden) : Prop :=
  latest_planting_constraints g =
    (g.crops.filter (fun c => !c.is_cover_crop)).map (fun crop =>
      { lhs := lpSum ((claimConstrainedWeeks crop.lifespan g.weeks).map
          (fun p => varE (Var.plant (get_plant_variable_name crop.name p))))
        rel := Rel.eq
        rhs := constE 0
        name := "latest_planting_" ++ crop.name })

/-! ### Concrete instances used by witnesses and counterexamples -/

/-- The spec's §8 companion example: crop A, lifespan 4, yield 10,
listing B as a companion. -/
def cropA : Crop :=
  { name := "A", companions := ["B"], greywater_ok := true, yield := 10,
    water_use := 1, delta_n := 0, lifespan := 4, is_cover_crop := false,
    is_compound := false }

/-- The spec's §8 companion example: crop B, lifespan 2, yield 3. -/
def cropB : Crop :=
  { name := "B", companions := [], greywater_ok := true, yield := 3,
    water_use := 1, delta_n := 0, lifespan := 2, is_cover_crop := false,
    is_compound := false }

/-- A small non-cover crop with lifespan 2. -/
def cropC : Crop :=
  { name := "c", companions := [], greywater_ok := true, yield := 1,
    water_use := 1, delta_n := 0, lifespan := 2, is_cover_crop := false,
    is_compound := false }

/-- A crop with lifespan 3, for the overlap-resolver examples. -/
def cropX : Crop :=
  { name := "x", companions := [], greywater_ok := false, yield := 2,
    water_use := 1, delta_n := 0, lifespan := 3, is_cover_crop := false,
    is_compound := false }

/-- A crop listing a companion name that matches no catalog entry. -/
def cropGhost : Crop :=
  { name := "A", companions := ["ghost"], greywater_ok := true, yield := 1,
    water_use := 1, delta_n := 0, lifespan := 1, is_cover_crop := false,
    is_compound := false }

/-- The spec's §8 yield-attribution example: base entry "tomato". -/
def tomato : Crop :=
  { name := "tomato", companions := [], greywater_ok := true, yield := 5,
    water_use := 1, delta_n := 0, lifespan := 4, is_cover_crop := false,
    is_compound := false }

/-- The spec's §8 yield-attribution example: compound entry
"tomato-basil" attributing 8 to tomato. -/
def tomatoBasil : Crop :=
  { name := "tomato-basil", companions := [], greywater_ok := true,
    yield := 10, water_use := 2, delta_n := 0, lifespan := 4,
    is_cover_crop := false, is_compound := true, plant_1_name := "tomato",
    plant_2_name := "basil", plant_1_yield := 8, plant_2_yield := 2 }

/-- A concrete three-week garden with one lifespan-2 crop. -/
def gEx : Garden :=
  { crops := [cropC], sqft := 10, weeks := 3, greywater := 1,
    rainwater := 5, yields := [] }

/-- A concrete garden with rainwater 1000, for the sensitivity step. -/
def gEx2 : Garden :=
  { crops := [cropC], sqft := 10, weeks := 3, greywater := 1,
    rainwater := 1000, yields := [] }

/-- A concrete assignment: every planted-area variable 1, fallow 2. -/
def aEx : Var → ℚ
  | Var.plant _ => 1
  | Var.fallow _ => 2

/-- A second assignment agreeing with `aEx` on planted-area variables. -/
def aEx2 : Var → ℚ
  | Var.plant _ => 1
  | Var.fallow _ => 3

/-! ### General lemmas about the embedded linear-expression layer -/

theorem eval_add (e₁ e₂ : LinExpr) (a : Var → ℚ) :
    (e₁.add e₂).eval a = e₁.eval a + e₂.eval a := by
  simp [LinExpr.add, LinExpr.eval]
  ring

theorem eval_smul (k : ℚ) (e : LinExpr) (a : Var → ℚ) :
    (LinExpr.smul k e).eval a = k * e.eval a := by
  obtain ⟨ts, c⟩ := e
  simp only [LinExpr.smul, LinExpr.eval, List.map_map]
  rw [mul_add]
  congr 1
  induction ts with
  | nil => simp
  | cons t ts ih =>
    simp [ih]
    ring

theorem eval_varE (v : Var) (a : Var → ℚ) : (varE v).eval a = a v := by
  simp [varE, LinExpr.eval]

theorem eval_constE (q : ℚ) (a : Var → ℚ) : (constE q).eval a = q := by
  simp [constE, LinExpr.eval]

theorem eval_lpSum (l : List LinExpr) (a : Var → ℚ) :
    (lpSum l).eval a = (l.map (fun e => e.eval a)).sum := by
  induction l with
  | nil => simp [lpSum, eval_constE]
  | cons e l ih =>
    simp only [lpSum, List.foldr_cons, eval_add, List.map_cons, List.sum_cons]
    rw [← ih]
    rfl

/-! ### Lemmas about the alive-week window -/

theorem range_filter_le (n k : ℕ) :
    (List.range n).filter (fun p => decide (k ≤ p)) = List.range' k (n - k) := by
  induction n with
  | zero => simp
  | succ n ih =>
    rw [List.range_succ, List.filter_append, ih]
    by_cases h : k ≤ n
    · have h2 : n + 1 - k = (n - k) + 1 := by omega
      rw [h2, List.range'_concat]
      simp [h, Nat.add_sub_cancel' h]
    · have h2 : n + 1 - k = 0 := by omega
      have h3 : n - k = 0 := by omega
      simp [h, h2, h3]

theorem aliveWeeksSpec_eq_range' (L : ℤ) (w : ℕ) :
    aliveWeeksSpec L w = List.range' (aliveStart L w) ((w + 1) - aliveStart L w) := by
  unfold aliveWeeksSpec aliveStart
  rw [← range_filter_le]
  apply List.filter_congr
  intro p _
  have h0 : (0 : ℤ) ≤ max 0 ((w : ℤ) - L + 1) := le_max_left _ _
  rw [decide_eq_decide]
  rw [← Int.toNat_le]

theorem alive_eq (crop : Crop) (w : ℕ) :
    get_plants_living_in_week crop w =
      (aliveWeeksSpec crop.lifespan w).map (get_plant_variable_name crop.name) := by
  rw [aliveWeeksSpec_eq_range']
  simp only [get_plants_living_in_week, get_variable_names_for_weeks, aliveStart]
  have h : (if ((w : ℤ) - crop.lifespan + 1) < 0 then (0 : ℤ)
      else ((w : ℤ) - crop.lifespan + 1)) = max 0 ((w : ℤ) - crop.lifespan + 1) := by
    split <;> omega
  rw [h]

theorem eval_lpSum_alive (crop : Crop) (w : ℕ) (a : Var → ℚ) :
    (lpSum ((get_plants_living_in_week crop w).map
      (fun v => varE (Var.plant v)))).eval a = aliveAreaSpec a crop w := by
  rw [eval_lpSum, alive_eq, aliveAreaSpec]
  simp only [List.map_map, Function.comp_def, eval_varE]

/-- The evaluated alive-variable sum is the spec's attributed alive
area. -/
theorem sum_alive (crop : Crop) (w : ℕ) (a : Var → ℚ) :
    ((get_plants_living_in_week crop w).map (fun v => a (Var.plant v))).sum
      = aliveAreaSpec a crop w := by
  rw [alive_eq, aliveAreaSpec]
  simp only [List.map_map, Function.comp_def]

/-- The nitrogen/yield expressions range over the same per-crop weekly
variable names. -/
theorem names_for_weeks_eq_range (c : String) (weeks : ℕ) :
    get_variable_names_for_weeks c 0 weeks =
      (List.range weeks).map (get_plant_variable_name c) := by
  simp [get_variable_names_for_weeks, List.range_eq_range']

/-! ### Lemmas for the catalog expansion -/

/-- Python's integer `//` agrees with the rational floor of the exact
quotient for positive divisors. -/
theorem fdiv_eq_floor (a b : ℤ) (hb : 0 < b) : a.fdiv b = ⌊(a : ℚ) / (b : ℚ)⌋ := by
  rw [Int.fdiv_eq_ediv _ (le_of_lt hb)]
  have h1 : (b : ℚ) = ((b.toNat : ℕ) : ℚ) := by
    rw [← Int.toNat_of_nonneg (le_of_lt hb)]
    push_cast
    rfl
  rw [h1, Rat.floor_intCast_div_natCast, Int.toNat_of_nonneg (le_of_lt hb)]

/-- Summing a function that vanishes away from one element counts that
element's occurrences. -/
theorem sum_map_single (l : List Crop) (g : Crop → ℕ) (C : Crop)
    (h0 : ∀ x ∈ l, x ≠ C → g x = 0) : (l.map g).sum = l.count C * g C := by
  induction l with
  | nil => simp
  | cons a l ih =>
    rw [List.map_cons, List.sum_cons, List.count_cons,
      ih (fun x hx => h0 x (List.mem_cons_of_mem a hx))]
    by_cases ha : a = C
    · subst ha
      simp
      ring
    · rw [h0 a (List.mem_cons_self a l) ha]
      have hba : (a == C) = false := beq_eq_false_iff_ne.mpr ha
      rw [hba]
      simp

/-- Under distinct catalog names, each ordered companion pair produces
exactly one compound entry. -/
theorem compound_count_one (crops : List Crop) (C P : Crop)
    (hN : (crops.map (fun c => c.name)).Nodup)
    (hC : C ∈ crops) (hP : P ∈ crops)
    (hcomp : P.name ∈ C.companions) :
    (compound_crops crops).countP
        (fun e => e.plant_1_name == C.name && e.plant_2_name == P.name) = 1 := by
  have hinj := List.inj_on_of_nodup_map hN
  unfold compound_crops
  rw [List.countP_flatMap]
  have key : ∀ x ∈ crops,
      (List.countP (fun e => e.plant_1_name == C.name && e.plant_2_name == P.name) ∘
        fun crop => (crops.filter (fun c => crop.companions.contains c.name)).map
          (fun companion => mkCompound crop companion)) x
      = if x = C then 1 else 0 := by
    intro x hx
    simp only [Function.comp_apply, List.countP_map]
    by_cases hxC : x = C
    · subst hxC
      rw [if_pos rfl, List.countP_filter]
      have hcongr : ∀ a ∈ crops,
          (((fun e => e.plant_1_name == x.name && e.plant_2_name == P.name) ∘
            fun companion => mkCompound x companion) a
            && x.companions.contains a.name) = true ↔ (a == P) = true := by
        intro a ha
        constructor
        · intro h
          simp only [Function.comp_apply, Bool.and_eq_true, beq_iff_eq] at h
          have haP : a.name = P.name := h.1.2
          exact beq_iff_eq.mpr (hinj ha hP haP)
        · intro h
          have haP : a = P := beq_iff_eq.mp h
          subst haP
          simp only [Function.comp_apply, Bool.and_eq_true, beq_iff_eq]
          exact ⟨⟨rfl, rfl⟩, List.elem_iff.mpr hcomp⟩
      rw [List.countP_congr hcongr, ← List.count_eq_countP,
        List.count_eq_one_of_mem (List.Nodup.of_map _ hN) hP]
    · rw [if_neg hxC, List.countP_eq_zero.mpr]
      intro a _
      simp only [Function.comp_apply, Bool.and_eq_true, beq_iff_eq, not_and]
      intro hxname
      exact absurd (hinj hx hC hxname) hxC
  have hzero : ∀ x ∈ crops, x ≠ C →
      (List.countP (fun e => e.plant_1_name == C.name && e.plant_2_name == P.name) ∘
        fun crop => (crops.filter (fun c => crop.companions.contains c.name)).map
          (fun companion => mkCompound crop companion)) x = 0 := by
    intro x hx hne
    rw [key x hx, if_neg hne]
  rw [sum_map_single _ _ C hzero, key C hC, if_pos rfl,
    List.count_eq_one_of_mem (List.Nodup.of_map _ hN) hC]

/-! ### Claim theorems -/

/-- C2: the sensitivity-analysis step scales the rainwater of the one
shared garden object in place — the source assigns
`garden.garden["rainwater"] = garden.garden["rainwater"] * 0.5` on the
same instance the primary run used, so after the step the instance no
longer carries its original rainwater value. -/
theorem C2_sensitivity_mutation :
    (sensitivity_step gEx2).rainwater = 500 ∧ gEx2.rainwater = 1000 := by
  constructor
  · show gEx2.rainwater * 0.5 = 500
    show (1000 : ℚ) * 0.5 = 500
    norm_num
  · rfl

/-- C3: each ordered companion pair (C, P) with P named in C's companions
yields exactly one compound entry, and that entry carries the claimed
derived attributes (floor-division multipliers, summed water use, ANDed
flags, concatenated name, empty companions). -/
theorem C3_compound_pair (crops : List Crop) (C P : Crop)
    (hN : (crops.map (fun c => c.name)).Nodup)
    (hC : C ∈ crops) (hP : P ∈ crops)
    (hcomp : P.name ∈ C.companions)
    (hCl : 0 < C.lifespan) (hPl : 0 < P.lifespan) :
    (compound_crops crops).countP
        (fun e => e.plant_1_name == C.name && e.plant_2_name == P.name) = 1 ∧
    ∀ e ∈ compound_crops crops,
      e.plant_1_name = C.name → e.plant_2_name = P.name →
        (e.lifespan = max C.lifespan P.lifespan ∧
         e.yield = (⌊((max C.lifespan P.lifespan : ℤ) : ℚ) / (C.lifespan : ℚ)⌋ : ℚ) * C.yield
                    + (⌊((max C.lifespan P.lifespan : ℤ) : ℚ) / (P.lifespan : ℚ)⌋ : ℚ) * P.yield ∧
         e.plant_1_yield = (⌊((max C.lifespan P.lifespan : ℤ) : ℚ) / (C.lifespan : ℚ)⌋ : ℚ) * C.yield ∧
         e.plant_2_yield = (⌊((max C.lifespan P.lifespan : ℤ) : ℚ) / (P.lifespan : ℚ)⌋ : ℚ) * P.yield ∧
         e.delta_n = C.delta_n * (⌊((max C.lifespan P.lifespan : ℤ) : ℚ) / (C.lifespan : ℚ)⌋ : ℚ)
                    + P.delta_n * (⌊((max C.lifespan P.lifespan : ℤ) : ℚ) / (P.lifespan : ℚ)⌋ : ℚ) ∧
         e.water_use = C.water_use + P.water_use ∧
         e.greywater_ok = (C.greywater_ok && P.greywater_ok) ∧
         e.is_cover_crop = (C.is_cover_crop && P.is_cover_crop) ∧
         e.name = C.name ++ "-" ++ P.name ∧
         e.is_compound = true ∧
         e.companions = ([] : List String)) := by
  have hinj := List.inj_on_of_nodup_map hN
  refine ⟨compound_count_one crops C P hN hC hP hcomp, ?_⟩
  intro e he h1 h2
  rcases List.mem_flatMap.mp he with ⟨x, hx, hin⟩
  rcases List.mem_map.mp hin with ⟨q, hqf, rfl⟩
  rcases List.mem_filter.mp hqf with ⟨hq, _⟩
  have h1' : x.name = C.name := h1
  have h2' : q.name = P.name := h2
  have hxC : x = C := hinj hx hC h1'
  have hqP : q = P := hinj hq hP h2'
  subst hxC
  subst hqP
  refine ⟨rfl, ?_, ?_, ?_, ?_, rfl, rfl, rfl, rfl, rfl, rfl⟩
  · rw [← fdiv_eq_floor _ _ hCl, ← fdiv_eq_floor _ _ hPl]
    rfl
  · rw [← fdiv_eq_floor _ _ hCl]
    rfl
  · rw [← fdiv_eq_floor _ _ hPl]
    rfl
  · rw [← fdiv_eq_floor _ _ hCl, ← fdiv_eq_floor _ _ hPl]
    rfl

/-- Witness for C3 at the spec's §8 example pair (A lifespan 4 yield 10,
B lifespan 2 yield 3). -/
theorem C3_witness :
    (([cropA, cropB].map (fun c => c.name)).Nodup ∧ cropA ∈ [cropA, cropB]
      ∧ cropB ∈ [cropA, cropB] ∧ cropB.name ∈ cropA.companions
      ∧ 0 < cropA.lifespan ∧ 0 < cropB.lifespan) ∧
    (compound_crops [cropA, cropB]).countP
      (fun e => e.plant_1_name == cropA.name && e.plant_2_name == cropB.name) = 1 :=
  ⟨⟨by decide, by decide, by decide, by decide, by decide, by decide⟩,
   (C3_compound_pair [cropA, cropB] cropA cropB (by decide) (by decide)
      (by decide) (by decide) (by decide) (by decide)).1⟩

/-- C4: for every crop with positive lifespan and every week `w`, the
Temporal Overlap Resolver returns exactly the planting-week variables for
planting weeks `p` in `[max 0 (w - lifespan + 1), w]`, in that order. -/
theorem C4_plants_living_interval (crop : Crop) (w : ℕ)
    (_h : 0 < crop.lifespan) :
    get_plants_living_in_week crop w =
      (aliveWeeksSpec crop.lifespan w).map (get_plant_variable_name crop.name) ∧
    ∀ p : ℕ, p ∈ aliveWeeksSpec crop.lifespan w ↔
      (max 0 ((w : ℤ) - crop.lifespan + 1) ≤ (p : ℤ) ∧ (p : ℤ) ≤ (w : ℤ)) := by
  refine ⟨alive_eq crop w, fun p => ?_⟩
  simp only [aliveWeeksSpec, List.mem_filter, List.mem_range, decide_eq_true_eq]
  omega

/-- Witness for C4 at the spec's examples: lifespan 3 gives alive weeks
{3,4,5} at week 5 and {0,1} at week 1. -/
theorem C4_witness :
    (0 : ℤ) < cropX.lifespan ∧
    get_plants_living_in_week cropX 5 = ["x_week_3", "x_week_4", "x_week_5"] ∧
    get_plants_living_in_week cropX 1 = ["x_week_0", "x_week_1"] :=
  ⟨by decide,
   ((C4_plants_living_interval cropX 5 (by decide)).1).trans (by decide),
   ((C4_plants_living_interval cropX 1 (by decide)).1).trans (by decide)⟩

/-- C6: for every week `w` in `[0, weeks)` the model contains an equality
constraint (not an inequality) stating that the alive-area contributions
of all catalog entries in week `w`, plus the fallow variable of week `w`,
equal the garden's square footage exactly. -/
theorem C6_land_equality (g : Garden) (w : ℕ) (hw : w < g.weeks) :
    ∃ cst ∈ (setup_problem g).constraints,
      cst.name = "land_constraint_week_" ++ toString w ∧
      cst.rel = Rel.eq ∧
      cst.rhs = constE g.sqft ∧
      ∀ a : Var → ℚ, cst.lhs.eval a =
        (g.crops.map (fun c => aliveAreaSpec a c w)).sum + a (Var.fallow w) := by
  refine ⟨land_constraint g w, ?_, rfl, rfl, rfl, fun a => ?_⟩
  · simp only [setup_problem]
    apply List.mem_append_left
    apply List.mem_append_left
    apply List.mem_append_left
    unfold weekly_constraints
    exact List.mem_flatMap.mpr ⟨w, List.mem_range.mpr hw, by simp⟩
  · simp only [land_constraint, eval_add, eval_varE, eval_lpSum, List.map_map,
      Function.comp_def, sum_alive]

/-- Witness for C6 at a concrete garden and week. -/
theorem C6_witness :
    ∃ cst ∈ (setup_problem gEx).constraints,
      cst.name = "land_constraint_week_" ++ toString 1 ∧
      cst.rel = Rel.eq ∧
      cst.rhs = constE gEx.sqft ∧
      ∀ a : Var → ℚ, cst.lhs.eval a =
        (gEx.crops.map (fun c => aliveAreaSpec a c 1)).sum + a (Var.fallow 1) :=
  C6_land_equality gEx 1 (by decide)

/-- C8: for every week `w` in `[0, weeks)` — the last week included — the
model contains a `≥` constraint (a floor) forcing the water use of the
greywater-compatible crops alive in week `w` to at least the weekly
greywater supply. -/
theorem C8_greywater_floor (g : Garden) (w : ℕ) (hw : w < g.weeks) :
    ∃ cst ∈ (setup_problem g).constraints,
      cst.name = "use_all_greywater_week_" ++ toString w ∧
      cst.rel = Rel.ge ∧
      cst.rhs = constE g.greywater ∧
      ∀ a : Var → ℚ, cst.lhs.eval a =
        ((g.crops.filter (fun c => c.greywater_ok)).map
          (fun c => c.water_use * aliveAreaSpec a c w)).sum := by
  refine ⟨use_all_greywater_constraint g w, ?_, rfl, rfl, rfl, fun a => ?_⟩
  · simp only [setup_problem]
    apply List.mem_append_left
    apply List.mem_append_left
    apply List.mem_append_left
    unfold weekly_constraints
    refine List.mem_flatMap.mpr ⟨w, List.mem_range.mpr hw, ?_⟩
    simp
  · simp only [use_all_greywater_constraint, get_greywater_plants, eval_lpSum,
      List.map_map, Function.comp_def, eval_smul, eval_varE, sum_alive]

/-- Witness for C8 at a concrete garden, taken at the LAST week of the
horizon (week 2 of a 3-week garden). -/
theorem C8_witness :
    ∃ cst ∈ (setup_problem gEx).constraints,
      cst.name = "use_all_greywater_week_" ++ toString 2 ∧
      cst.rel = Rel.ge ∧
      cst.rhs = constE gEx.greywater ∧
      ∀ a : Var → ℚ, cst.lhs.eval a =
        ((gEx.crops.filter (fun c => c.greywater_ok)).map
          (fun c => c.water_use * aliveAreaSpec a c 2)).sum :=
  C8_greywater_floor gEx 2 (by decide)

/-- C7: the optimized objective is exactly
`total_yield + 0.1 * total_nitrogen_delta`, each summand charging a
crop's coefficient once per planting-week variable; the fallow penalty is
not part of it — the objective's value is independent of the fallow
variables. -/
theorem C7_objective (g : Garden) :
    (∀ a : Var → ℚ, (setup_problem g).objective.eval a =
        (g.crops.map (fun c => c.yield * weeklySum a c g.weeks)).sum
          + (1/10) * (g.crops.map (fun c => c.delta_n * weeklySum a c g.weeks)).sum) ∧
    (∀ a₁ a₂ : Var → ℚ, (∀ s, a₁ (Var.plant s) = a₂ (Var.plant s)) →
        (setup_problem g).objective.eval a₁ = (setup_problem g).objective.eval a₂) := by
  have key : ∀ a : Var → ℚ, (setup_problem g).objective.eval a =
      (g.crops.map (fun c => c.yield * weeklySum a c g.weeks)).sum
        + (1/10) * (g.crops.map (fun c => c.delta_n * weeklySum a c g.weeks)).sum := by
    intro a
    simp only [setup_problem, total_yield, nitrogen_expression, eval_add,
      eval_smul, eval_lpSum, List.map_map, Function.comp_def, eval_varE,
      get_weeks_for_plant, names_for_weeks_eq_range, weeklySum]
  refine ⟨key, fun a₁ a₂ hag => ?_⟩
  rw [key, key]
  simp only [weeklySum, hag]

/-- Over a `range'` list, removing the head is the same as filtering to
the elements strictly above the start. -/
theorem range'_drop_one_eq_filter (s n : ℕ) :
    (List.range' s n).drop 1 = (List.range' s n).filter (fun p => decide (s < p)) := by
  cases n with
  | zero => simp
  | succ m =>
    rw [List.range'_succ]
    have h1 : (s :: List.range' (s + 1) m).drop 1 = List.range' (s + 1) m := rfl
    rw [h1, List.filter_cons]
    have h2 : ¬ (decide (s < s) = true) := by simp
    rw [if_neg h2]
    rw [List.filter_eq_self.mpr]
    intro x hx
    have := List.mem_range'_1.mp hx
    simp only [decide_eq_true_eq]
    omega

/-- With at least one week in the horizon, dropping the first
alive-in-final-week entry leaves exactly the planting weeks strictly
after `max 0 (weeks - lifespan)`. -/
theorem alive_drop_one (L : ℤ) (weeks : ℕ) (hw : 1 ≤ weeks) :
    (aliveWeeksSpec L (weeks - 1)).drop 1
      = (aliveWeeksSpec L (weeks - 1)).filter
          (fun p : ℕ => decide (max 0 ((weeks : ℤ) - L) < (p : ℤ))) := by
  have hcast : ((weeks - 1 : ℕ) : ℤ) = (weeks : ℤ) - 1 := by omega
  have hstart : aliveStart L (weeks - 1) = (max 0 ((weeks : ℤ) - L)).toNat := by
    unfold aliveStart
    rw [hcast]
    congr 1
    omega
  have hmax : (0 : ℤ) ≤ max 0 ((weeks : ℤ) - L) := le_max_left _ _
  rw [aliveWeeksSpec_eq_range', hstart, range'_drop_one_eq_filter]
  apply List.filter_congr
  intro p _
  rw [decide_eq_decide]
  omega

/-- The code's final-week overlap list, after the conditional
`plants_that_overlap[1:]` truncation, names exactly the amended claim's
constrained planting weeks. -/
theorem code_constrained_eq (crop : Crop) (weeks : ℕ) (hw : 1 ≤ weeks) :
    (if crop.lifespan ≤ (weeks : ℤ)
        ∧ 0 < (get_plants_living_in_week crop (weeks - 1)).length then
      (get_plants_living_in_week crop (weeks - 1)).drop 1
    else get_plants_living_in_week crop (weeks - 1))
    = (amendedConstrainedWeeks crop.lifespan weeks).map
        (get_plant_variable_name crop.name) := by
  unfold amendedConstrainedWeeks
  rw [alive_eq]
  simp only [List.length_map]
  by_cases h : crop.lifespan ≤ (weeks : ℤ)
      ∧ 0 < (aliveWeeksSpec crop.lifespan (weeks - 1)).length
  · rw [if_pos h, if_pos ⟨h.1, List.length_pos.mp h.2⟩]
    rw [← List.map_drop, alive_drop_one crop.lifespan weeks hw]
  · rw [if_neg h, if_neg]
    intro hc
    exact h ⟨hc.1, List.length_pos.mpr hc.2⟩

/-- C1 (amended): for a horizon of at least one week, the harvestability
block contains exactly one zero-sum equality constraint per non-cover
catalog entry (cover crops get none), covering that entry's
alive-in-final-week planting-week variables — all of them when the
lifespan exceeds the horizon, and all except the single EARLIEST one
(planting week `max 0 (weeks - lifespan)`) when the lifespan fits the
horizon and the alive set is non-empty. -/
theorem C1_latest_planting_exempts_earliest (g : Garden) (hw : 1 ≤ g.weeks) :
    latest_planting_constraints g =
      (g.crops.filter (fun c => !c.is_cover_crop)).map (fun crop =>
        { lhs := lpSum ((amendedConstrainedWeeks crop.lifespan g.weeks).map
            (fun p => varE (Var.plant (get_plant_variable_name crop.name p))))
          rel := Rel.eq
          rhs := constE 0
          name := "latest_planting_" ++ crop.name }) := by
  unfold latest_planting_constraints
  induction g.crops with
  | nil => rfl
  | cons c l ih =>
    rw [List.filterMap_cons, List.filter_cons]
    by_cases hc : c.is_cover_crop
    · simp only [hc, if_pos rfl]
      have : (!true) = false := rfl
      rw [ih]
      simp [hc]
    · have hcf : c.is_cover_crop = false := by
        exact Bool.not_eq_true _ |>.mp hc
      simp only [hcf, Bool.not_false, Bool.false_eq_true, if_false, if_true]
      rw [List.map_cons]
      congr 1
      · congr 1
        rw [code_constrained_eq c g.weeks hw, List.map_map]
        simp only [Function.comp_def]

/-- Counterexample to C1 as stated: in the three-week garden `gEx` with
the lifespan-2 non-cover crop `c`, the alive-in-final-week planting weeks
are {1, 2}; the claim exempts the most recent (week 2) and so constrains
week 1, but the built constraint constrains week 2. -/
theorem C1_counterexample : ¬ C1Claim gEx := by
  unfold C1Claim
  decide

/-- Witness for the amended C1 at the concrete garden `gEx`. -/
theorem C1_witness :
    1 ≤ gEx.weeks ∧
    latest_planting_constraints gEx =
      (gEx.crops.filter (fun c => !c.is_cover_crop)).map (fun crop =>
        { lhs := lpSum ((amendedConstrainedWeeks crop.lifespan gEx.weeks).map
            (fun p => varE (Var.plant (get_plant_variable_name crop.name p))))
          rel := Rel.eq
          rhs := constE 0
          name := "latest_planting_" ++ crop.name }) :=
  ⟨by decide, C1_latest_planting_exempts_earliest gEx (by decide)⟩

/-- Witness for C7 at a concrete garden, with two assignments that agree
on the planted-area variables but differ on the fallow variables. -/
theorem C7_witness :
    ((setup_problem gEx).objective.eval aEx =
      (gEx.crops.map (fun c => c.yield * weeklySum aEx c gEx.weeks)).sum
        + (1/10) * (gEx.crops.map (fun c => c.delta_n * weeklySum aEx c gEx.weeks)).sum) ∧
    (setup_problem gEx).objective.eval aEx = (setup_problem gEx).objective.eval aEx2 :=
  ⟨(C7_objective gEx).1 aEx,
   (C7_objective gEx).2 aEx aEx2 (fun _ => rfl)⟩

/-! ### Lemmas for yield attribution -/

/-- Whatever `get_target_yields` writes for an entry is keyed by that
entry's name. -/
theorem targetEntry_key (target : String) (c : Crop) (kv : String × ℚ)
    (h : targetEntry target c = some kv) : kv.1 = c.name := by
  unfold targetEntry at h
  split_ifs at h <;> cases h <;> rfl

/-- Python-dict assignment with a fresh key appends. -/
theorem dictSet_append (d : List (String × ℚ)) (k : String) (v : ℚ)
    (h : ∀ kv ∈ d, kv.1 ≠ k) : dictSet d k v = d ++ [(k, v)] := by
  unfold dictSet
  rw [if_neg]
  simp only [List.any_eq_true, beq_iff_eq, not_exists, not_and]
  exact fun kv hkv => h kv hkv

/-- With distinct catalog names the `get_target_yields` fold never
overwrites, so the dict is the per-entry `filterMap`. -/
theorem gty_aux (target : String) : ∀ (l : List Crop),
    (l.map (fun c => c.name)).Nodup →
    ∀ d : List (String × ℚ), (∀ c ∈ l, ∀ kv ∈ d, kv.1 ≠ c.name) →
    l.foldl (fun d c =>
        match targetEntry target c with
        | some kv => dictSet d kv.1 kv.2
        | none => d) d
      = d ++ l.filterMap (targetEntry target) := by
  intro l
  induction l with
  | nil =>
    intro _ d _
    simp
  | cons c l ih =>
    intro hN d hd
    rw [List.foldl_cons, List.filterMap_cons]
    have hN' : (l.map (fun c => c.name)).Nodup := (List.nodup_cons.mp hN).2
    have hcnotin : c.name ∉ l.map (fun c => c.name) := (List.nodup_cons.mp hN).1
    cases h : targetEntry target c with
    | none =>
      simp only [h]
      exact ih hN' d (fun c' hc' kv hkv => hd c' (List.mem_cons_of_mem c hc') kv hkv)
    | some kv =>
      simp only [h]
      have hk : kv.1 = c.name := targetEntry_key target c kv h
      have hds : dictSet d kv.1 kv.2 = d ++ [kv] := by
        rw [dictSet_append]
        intro kv' hkv'
        rw [hk]
        exact hd c (List.mem_cons_self c l) kv' hkv'
      have hside : ∀ c' ∈ l, ∀ kv' ∈ d ++ [kv], kv'.1 ≠ c'.name := by
        intro c' hc' kv' hkv'
        rcases List.mem_append.mp hkv' with hl | hr
        · exact hd c' (List.mem_cons_of_mem c hc') kv' hl
        · have hkv : kv' = kv := by simpa using hr
          subst hkv
          rw [hk]
          intro heq
          exact hcnotin (heq ▸ List.mem_map_of_mem _ hc')
      rw [hds, ih hN' (d ++ [kv]) hside, List.append_assoc]
      rfl

theorem get_target_yields_eq_filterMap (crops : List Crop) (target : String)
    (hN : (crops.map (fun c => c.name)).Nodup) :
    get_target_yields crops target = crops.filterMap (targetEntry target) := by
  unfold get_target_yields
  rw [gty_aux target crops hN [] (fun c _ kv hkv => absurd hkv (List.not_mem_nil kv))]
  rfl

theorem lookup_keys_none (l : List (String × ℚ)) (k : String)
    (h : ∀ kv ∈ l, kv.1 ≠ k) : l.lookup k = none := by
  induction l with
  | nil => rfl
  | cons kv t ih =>
    obtain ⟨k', v'⟩ := kv
    rw [List.lookup_cons]
    have hf : (k == k') = false := by
      rw [beq_eq_false_iff_ne]
      exact fun heq => h (k', v') (List.mem_cons_self _ t) (heq ▸ rfl)
    rw [hf]
    exact ih (fun kv hkv => h kv (List.mem_cons_of_mem _ hkv))

theorem filterMap_keys (target : String) (l : List Crop) :
    ∀ kv ∈ l.filterMap (targetEntry target), kv.1 ∈ l.map (fun c => c.name) := by
  intro kv h
  rcases List.mem_filterMap.mp h with ⟨c, hc, he⟩
  rw [targetEntry_key target c kv he]
  exact List.mem_map_of_mem _ hc

/-- Looking an entry's name up in the attribution dict yields exactly
that entry's contribution. -/
theorem lookup_target : ∀ (crops : List Crop) (target : String),
    (crops.map (fun c => c.name)).Nodup → ∀ c, c ∈ crops →
    (crops.filterMap (targetEntry target)).lookup c.name
      = Option.map Prod.snd (targetEntry target c) := by
  intro crops target
  induction crops with
  | nil =>
    intro _ c hc
    cases hc
  | cons hd tl ih =>
    intro hN c hc
    have hN' : (tl.map (fun c => c.name)).Nodup := (List.nodup_cons.mp hN).2
    have hhdnotin : hd.name ∉ tl.map (fun c => c.name) := (List.nodup_cons.mp hN).1
    rw [List.filterMap_cons]
    rcases List.mem_cons.mp hc with rfl | hmem
    · cases h : targetEntry target c with
      | none =>
        simp only [h]
        rw [lookup_keys_none]
        · simp
        · intro kv hkv heq
          exact hhdnotin (heq ▸ filterMap_keys target tl kv hkv)
      | some kv =>
        simp only [h]
        obtain ⟨k1, v1⟩ := kv
        have hk : k1 = c.name := targetEntry_key target c (k1, v1) h
        rw [List.lookup_cons]
        have ht : (c.name == k1) = true := by
          rw [hk]
          exact beq_self_eq_true _
        rw [ht]
        simp
    · have hne : hd.name ≠ c.name := fun heq =>
        hhdnotin (heq ▸ List.mem_map_of_mem _ hmem)
      cases h : targetEntry target hd with
      | none =>
        simp only [h]
        exact ih hN' c hmem
      | some kv =>
        simp only [h]
        obtain ⟨k1, v1⟩ := kv
        have hk : k1 = hd.name := targetEntry_key target hd (k1, v1) h
        rw [List.lookup_cons]
        have hf : (c.name == k1) = false := by
          rw [beq_eq_false_iff_ne, hk]
          exact fun heq => hne heq.symm
        rw [hf]
        exact ih hN' c hmem

/-- C5: under distinct entry names, yield attribution maps each matching
non-compound entry to its full yield, each compound entry to its
`plant_1_yield` when `plant_1_name` matches (else `plant_2_yield` when
`plant_2_name` matches, never both), and omits entries matching
neither. -/
theorem C5_target_yields (crops : List Crop) (target : String)
    (hN : (crops.map (fun c => c.name)).Nodup) (c : Crop) (hc : c ∈ crops) :
    (c.is_compound = false →
      ((c.name = target →
          (get_target_yields crops target).lookup c.name = some c.yield) ∧
       (c.name ≠ target →
          (get_target_yields crops target).lookup c.name = none))) ∧
    (c.is_compound = true →
      ((c.plant_1_name = target →
          (get_target_yields crops target).lookup c.name = some c.plant_1_yield) ∧
       (c.plant_1_name ≠ target → c.plant_2_name = target →
          (get_target_yields crops target).lookup c.name = some c.plant_2_yield) ∧
       (c.plant_1_name ≠ target → c.plant_2_name ≠ target →
          (get_target_yields crops target).lookup c.name = none))) := by
  rw [get_target_yields_eq_filterMap crops target hN]
  have hl := lookup_target crops target hN c hc
  constructor
  · intro hcomp
    constructor
    · intro hname
      rw [hl]
      simp [targetEntry, hcomp, hname]
    · intro hname
      rw [hl]
      simp [targetEntry, hcomp, hname]
  · intro hcomp
    refine ⟨?_, ?_, ?_⟩
    · intro h1
      rw [hl]
      simp [targetEntry, hcomp, h1]
    · intro h1 h2
      rw [hl]
      simp [targetEntry, hcomp, h1, h2]
    · intro h1 h2
      rw [hl]
      simp [targetEntry, hcomp, h1, h2]

/-- Witness for C5 at the spec's §8 example: target "tomato" with base
entry "tomato" (yield 5) and compound "tomato-basil" (plant_1_yield 8). -/
theorem C5_witness :
    ([tomato, tomatoBasil].map (fun c => c.name)).Nodup ∧
    (get_target_yields [tomato, tomatoBasil] "tomato").lookup "tomato" = some 5 ∧
    (get_target_yields [tomato, tomatoBasil] "tomato").lookup "tomato-basil" = some 8 :=
  ⟨by decide,
   ((C5_target_yields [tomato, tomatoBasil] "tomato" (by decide) tomato
      (by decide)).1 rfl).1 rfl,
   ((C5_target_yields [tomato, tomatoBasil] "tomato" (by decide) tomatoBasil
      (by decide)).2 rfl).1 rfl⟩

/-- C9: every compound entry arises from a pair of pre-expansion catalog
crops (so compound entries, whose companion lists are empty, never
compose further), and a companion name matching no catalog crop produces
no compound entry at all — the expansion is total and silently skips
it. -/
theorem C9_unknown_companion (crops : List Crop) :
    (∀ e ∈ compound_crops crops,
        (∃ C ∈ crops, ∃ P ∈ crops, P.name ∈ C.companions ∧ e = mkCompound C P)
        ∧ e.companions = []) ∧
    (∀ (C : Crop) (n : String), C ∈ crops → n ∈ C.companions →
        n ∉ crops.map (fun c => c.name) →
        (compound_crops crops).filter (fun e => e.plant_2_name == n) = []) := by
  have hshape : ∀ e ∈ compound_crops crops,
      ∃ C ∈ crops, ∃ P ∈ crops, P.name ∈ C.companions ∧ e = mkCompound C P := by
    intro e he
    rcases List.mem_flatMap.mp he with ⟨C, hC, hin⟩
    rcases List.mem_map.mp hin with ⟨P, hPf, rfl⟩
    rcases List.mem_filter.mp hPf with ⟨hPmem, hcont⟩
    exact ⟨C, hC, P, hPmem, List.elem_iff.mp hcont, rfl⟩
  constructor
  · intro e he
    refine ⟨hshape e he, ?_⟩
    rcases hshape e he with ⟨C, _, P, _, _, rfl⟩
    rfl
  · intro C n _ _ hnot
    rw [List.filter_eq_nil_iff]
    intro e he hbeq
    rcases hshape e he with ⟨C', _, P', hP'mem, _, rfl⟩
    have hname : P'.name = n := by
      have hn : (mkCompound C' P').plant_2_name = n := eq_of_beq hbeq
      exact hn
    exact hnot (hname ▸ List.mem_map_of_mem _ hP'mem)

/-- Witness for C9: a catalog whose only crop lists the unmatched
companion name "ghost". -/
theorem C9_witness :
    (cropGhost ∈ [cropGhost] ∧ "ghost" ∈ cropGhost.companions ∧
      "ghost" ∉ [cropGhost].map (fun c => c.name)) ∧
    (compound_crops [cropGhost]).filter (fun e => e.plant_2_name == "ghost") = [] :=
  ⟨⟨by decide, by decide, by decide⟩,
   (C9_unknown_companion [cropGhost]).2 cropGhost "ghost" (by decide) (by decide)
     (by decide)⟩

/-- When some entry matches the requested name, the lookup returns the
first such entry in catalog order. -/
theorem gcbn_found (n : String) : ∀ (crops : List Crop),
    (∃ c ∈ crops, c.name = n) →
    ∃ c', get_crop_by_name crops n = some c' ∧ c'.name = n ∧
      ∃ pre post, crops = pre ++ c' :: post ∧ ∀ x ∈ pre, x.name ≠ n := by
  intro crops
  induction crops with
  | nil =>
    rintro ⟨c, hc, _⟩
    cases hc
  | cons hd tl ih =>
    rintro ⟨c, hc, hname⟩
    by_cases hhd : hd.name = n
    · refine ⟨hd, ?_, hhd, [], tl, rfl, by simp⟩
      unfold get_crop_by_name
      rw [List.filter_cons]
      have ht : (hd.name == n) = true := beq_iff_eq.mpr hhd
      rw [ht]
      rfl
    · have hex : ∃ c ∈ tl, c.name = n := by
        rcases List.mem_cons.mp hc with rfl | htl
        · exact absurd hname hhd
        · exact ⟨c, htl, hname⟩
      rcases ih hex with ⟨c', h1, h2, pre, post, h3, h4⟩
      refine ⟨c', ?_, h2, hd :: pre, post, by rw [h3]; rfl, ?_⟩
      · unfold get_crop_by_name at h1 ⊢
        rw [List.filter_cons]
        have hf : (hd.name == n) = false := beq_eq_false_iff_ne.mpr hhd
        rw [hf]
        exact h1
      · intro x hx
        rcases List.mem_cons.mp hx with rfl | hpre
        · exact hhd
        · exact h4 x hpre

/-- C10: `get_crop_by_name` fails (the `[0]` indexing raises, modelled as
`none`) exactly when no entry matches, and otherwise returns the first
matching entry in catalog order. -/
theorem C10_get_crop_by_name (crops : List Crop) (n : String) :
    ((∀ c ∈ crops, c.name ≠ n) → get_crop_by_name crops n = none) ∧
    ((∃ c ∈ crops, c.name = n) →
      ∃ c', get_crop_by_name crops n = some c' ∧ c'.name = n ∧
        ∃ pre post, crops = pre ++ c' :: post ∧ ∀ x ∈ pre, x.name ≠ n) := by
  constructor
  · intro h
    unfold get_crop_by_name
    rw [List.filter_eq_nil_iff.mpr]
    · rfl
    · intro a ha hbeq
      exact h a ha (eq_of_beq hbeq)
  · exact gcbn_found n crops

/-- Witness for C10: an unmatched name returns `none`; name "B" returns
the first (and only) matching entry. -/
theorem C10_witness :
    get_crop_by_name [cropA, cropB] "Z" = none ∧
    ∃ c', get_crop_by_name [cropA, cropB] "B" = some c' ∧ c'.name = "B" ∧
      ∃ pre post, [cropA, cropB] = pre ++ c' :: post ∧ ∀ x ∈ pre, x.name ≠ "B" :=
  ⟨(C10_get_crop_by_name [cropA, cropB] "Z").1 (by decide),
   (C10_get_crop_by_name [cropA, cropB] "B").2 ⟨cropB, by decide, rfl⟩⟩

end GardenOpt
